import Mathlib

/-
Shallow embedding of the interactive core of the Prism-TUI terminal dashboard
(src/app.rs, src/update.rs, src/data/logs.rs), together with proofs about the
properties its specification states.

Modelling conventions:
  * Rust Vec and HashSet/HashMap become Lean lists; for the two hash sets/maps
    (collapsed_groups, running_instances) only membership / per-key semantics
    are ever used by the embedded code, so a list with the same membership is a
    faithful image (HashMap iteration order never influences any modelled
    result: eviction decisions are per-entry and group order is re-sorted).
  * Rust String becomes Lean String, byte positions become character
    positions (all the embedded code treats strings as char/byte sequences
    uniformly, no byte-vs-char distinction is observable in the claims).
  * u16 arithmetic in rect_contains wraps modulo 2 ^ 16 (release-mode Rust
    semantics); usize and u64 become Nat, i64 becomes Int.
  * std::time::Instant becomes a Nat timestamp in seconds; elapsed() is
    truncated subtraction from a "now" parameter.
  * External collaborators (process scanning, file IO, persistence) are
    inputs to the embedded functions, mirroring the spec's component split.
-/

set_option maxRecDepth 4096

/-- Substring test on char lists: does the second list start with the first? -/
def listHasPre : List Char → List Char → Bool
  | [], _ => true
  | _ :: _, [] => false
  | c :: cs, h :: hs => c == h && listHasPre cs hs

/-- Substring test on char lists: does the needle occur anywhere in the
haystack?  Image of Rust str::contains. -/
def listHasSub (needle : List Char) : List Char → Bool
  | [] => needle.isEmpty
  | h :: hs => listHasPre needle (h :: hs) || listHasSub needle hs

/-- Rust str::contains(&str) on Lean strings (haystack first). -/
def strContainsSub (haystack needle : String) : Bool :=
  listHasSub needle.data haystack.data

/-- Comparison on Option mirroring Rust's derived Ord for Option: None sorts
before Some. -/
def optCompare {α : Type} (cmp : α → α → Ordering) : Option α → Option α → Ordering
  | none, none => .eq
  | none, some _ => .lt
  | some _, none => .gt
  | some a, some b => cmp a b

/-- Lexicographic comparison of char lists by code point; agrees with Rust's
byte-wise Ord for String on UTF-8. -/
def charListCompare : List Char → List Char → Ordering
  | [], [] => .eq
  | [], _ :: _ => .lt
  | _ :: _, [] => .gt
  | a :: as, b :: bs =>
    if a < b then .lt else if b < a then .gt else charListCompare as bs

/-- String comparison, image of Rust String::cmp. -/
def strCompare (a b : String) : Ordering :=
  charListCompare a.data b.data

/-- Comparison on Int, image of i64::cmp. -/
def intCompare (a b : Int) : Ordering :=
  if a < b then .lt else if b < a then .gt else .eq

/-- Comparison on Nat, image of u64/usize cmp. -/
def natCompare (a b : Nat) : Ordering :=
  if a < b then .lt else if b < a then .gt else .eq

/-- Stable sort by an Ordering-valued comparator, image of Rust's stable
slice::sort_by: an element is placed after every earlier element that does not
compare strictly greater than it. -/
def stableSortBy {α : Type} (cmp : α → α → Ordering) (l : List α) : List α :=
  l.mergeSort (fun a b => cmp a b ≠ .gt)

/- ---------------------------------------------------------------------------
Data model (src/app.rs, src/data/instance.rs, src/data/accounts.rs,
src/data/servers.rs).
--------------------------------------------------------------------------- -/

/-- Image of data::Instance (src/data/instance.rs); server_join is omitted:
no embedded operation reads it. -/
structure Instance where
  id : String
  name : String
  path : String
  group : Option String
  minecraft_version : String
  mod_loader : Option String
  total_time_played : Nat
  last_launch : Option Int
deriving DecidableEq

/-- Image of data::Account; only the fields the embedded operations read. -/
structure Account where
  username : String
  is_active : Bool
deriving DecidableEq

/-- Image of data::Server. -/
structure Server where
  name : String
  ip : String
deriving DecidableEq

/-- Image of app::GroupedInstances. -/
structure GroupedInstances where
  group_name : Option String
  instances : List Instance
deriving DecidableEq

/-- Image of app::SortMode. -/
inductive SortMode where
  | LastPlayed
  | Name
  | Playtime
  | Version
  | ModLoader
deriving DecidableEq

/-- Image of SortMode::next (src/app.rs). -/
def SortMode.next : SortMode → SortMode
  | .LastPlayed => .Name
  | .Name => .Playtime
  | .Playtime => .Version
  | .Version => .ModLoader
  | .ModLoader => .LastPlayed

/-- Image of app::InputMode. -/
inductive InputMode where
  | Normal
  | Search
  | LogSearch
  | AddServerName
  | AddServerAddress
  | EditServerName
  | EditServerAddress
  | ConfirmDelete
deriving DecidableEq

/-- Image of app::VisualRow. -/
inductive VisualRow where
  | GroupHeader (key : String) (collapsed : Bool) (count : Nat)
  | Instance (idx : Nat)
deriving DecidableEq

/-- Image of app::RunningInstance; pid is an abstract process id, launched_at
a timestamp in seconds. -/
structure RunningInstance where
  pid : Option Nat
  launched_at : Nat
deriving DecidableEq

/-- The messages of message::Message whose update arms are embedded here
(the arms the claims are about). -/
inductive Message where
  | SelectInstance (idx : Nat)
  | ConfirmDeleteServer
  | CycleSortMode
  | ToggleGroupCollapse
  | NextGroup
  | PrevGroup
  | SearchChar (c : Char)
deriving DecidableEq

/-- Image of ratatui Rect; fields are u16 values. -/
structure Rect where
  x : Nat
  y : Nat
  width : Nat
  height : Nat
deriving DecidableEq

/-- Image of app::ClickAction (Noop stands for itself and for the
screen-dependent variants irrelevant to hit-testing). -/
inductive ClickAction where
  | SwitchTab (i : Nat)
  | SelectItem (idx : Nat)
  | GroupHeader (key : String)
  | FooterAction (msg : Message)
  | JoinCheckbox
  | GoBack
  | DismissOverlay
  | SelectLogFile (idx : Nat)
  | ScrollLogPreview
  | Noop
deriving DecidableEq

/-- Image of app::ClickRegion. -/
structure ClickRegion where
  rect : Rect
  action : ClickAction
deriving DecidableEq

/- ---------------------------------------------------------------------------
Click-region hit testing (src/update.rs, rect_contains and the region lookup
inside handle_mouse).
--------------------------------------------------------------------------- -/

/-- Image of update::rect_contains; u16 addition wraps modulo 2 ^ 16. -/
def rect_contains (rect : Rect) (col row : Nat) : Bool :=
  decide (rect.x ≤ col) && decide (col < (rect.x + rect.width) % 65536) &&
  decide (rect.y ≤ row) && decide (row < (rect.y + rect.height) % 65536)

/-- The region lookup of handle_mouse (src/update.rs lines 617-623): scan the
registrations in reverse and take the first rectangle containing the point;
a None result leads to no action being dispatched. -/
def hit_test (regions : List ClickRegion) (col row : Nat) : Option ClickAction :=
  (regions.reverse.find? (fun r => rect_contains r.rect col row)).map (fun r => r.action)

/- ---------------------------------------------------------------------------
Server address validation (src/update.rs, validate_server_address).
--------------------------------------------------------------------------- -/

/-- Image of str::parse::<u16>: optional leading plus sign, then one or more
ASCII digits, value at most 65535. -/
def parseU16 (cs : List Char) : Option Nat :=
  let digits := match cs with
    | '+' :: rest => rest
    | _ => cs
  if digits.isEmpty then none
  else if digits.all (fun c => c.isDigit) then
    let v := digits.foldl (fun acc c => acc * 10 + (c.toNat - '0'.toNat)) 0
    if v ≤ 65535 then some v else none
  else none

/-- Image of address.rsplitn(2, ':') producing the (host, port) pair when the
address contains a colon: the split is at the last colon. -/
def rsplitLastColon : List Char → Option (List Char × List Char)
  | [] => none
  | c :: rest =>
    match rsplitLastColon rest with
    | some (h, p) => some (c :: h, p)
    | none => if c = ':' then some ([], rest) else none

/-- Image of update::validate_server_address on the address's char list. -/
def validateChars (address : List Char) : Except String Unit :=
  if address.isEmpty then .error "Server address cannot be empty"
  else if address.contains ' ' then .error "Server address cannot contain spaces"
  else
    match rsplitLastColon address with
    | some (host, port) =>
      if (parseU16 port).isNone then .error "Invalid port number"
      else if host.isEmpty then .error "Server hostname cannot be empty"
      else .ok ()
    | none =>
      if address.isEmpty then .error "Server hostname cannot be empty"
      else .ok ()

/-- Image of update::validate_server_address. -/
def validate_server_address (address : String) : Except String Unit :=
  validateChars address.data

/- ---------------------------------------------------------------------------
Process reconciliation (src/update.rs, poll_running_instances).
--------------------------------------------------------------------------- -/

/-- Grace period in seconds before an unmatched launch is given up
(Duration::from_secs(30) in poll_running_instances). -/
def launchGracePeriod : Nat := 30

/-- Image of update::poll_running_instances.  found_pids is the result of
scan_java_processes (instance id to matched pid), now the current time in
seconds.  The HashMap iteration plus deferred removal of the source is per-key,
so it is embedded as one pass over the entries: a matched entry gets its pid
bound and is kept; an unmatched entry that had a pid is evicted (game exited);
an unmatched entry with no pid is evicted once the grace period has elapsed,
otherwise kept. -/
def poll_running_instances (found_pids : String → Option Nat) (now : Nat)
    (running : List (String × RunningInstance)) : List (String × RunningInstance) :=
  running.filterMap (fun e =>
    match found_pids e.1 with
    | some pid => some (e.1, { pid := some pid, launched_at := e.2.launched_at })
    | none =>
      if e.2.pid.isSome then none
      else if launchGracePeriod < now - e.2.launched_at then none
      else some e)

/- ---------------------------------------------------------------------------
Log content loading (src/data/logs.rs, load_log_content).
--------------------------------------------------------------------------- -/

/-- Maximum decompressed log file size in bytes (src/data/logs.rs). -/
def MAX_LOG_SIZE : Nat := 10 * 1024 * 1024

/-- Maximum number of lines read from a log file (src/data/logs.rs). -/
def MAX_LOG_LINES : Nat := 100000

/-- BufRead::lines strips a trailing carriage return from each line. -/
def stripCR (line : List Char) : List Char :=
  if line.getLast? = some '\r' then line.dropLast else line

/-- Image of reader.lines().take(fuel): read at most fuel newline-terminated
lines (the last line may be terminated by end of input). -/
def takeLines : Nat → List Char → List (List Char)
  | 0, _ => []
  | _ + 1, [] => []
  | fuel + 1, c :: cs =>
    let line := (c :: cs).takeWhile (fun ch => ch ≠ '\n')
    match (c :: cs).drop line.length with
    | [] => [stripCR line]
    | _ :: rest => stripCR line :: takeLines fuel rest

/-- Bytes a buffered reader consumes from its input while producing up to
fuel lines: each produced line consumes its characters and its terminating
newline (if present); nothing past the last produced line is read. -/
def consumedBytes : Nat → List Char → Nat
  | _, [] => 0
  | 0, _ => 0
  | fuel + 1, c :: cs =>
    if c = '\n' then 1 + consumedBytes fuel cs
    else 1 + consumedBytes (fuel + 1) cs

/-- Image of logs::load_log_content.  The file is given by its (decompressed)
content; isGz selects the gzip branch, which caps the decompressed bytes at
MAX_LOG_SIZE before reading lines, while the plain branch reads lines with no
byte cap.  Both branches cap the returned lines at MAX_LOG_LINES. -/
def load_log_content (isGz : Bool) (content : List Char) : List (List Char) :=
  if isGz then takeLines MAX_LOG_LINES (content.take MAX_LOG_SIZE)
  else takeLines MAX_LOG_LINES content

/- ---------------------------------------------------------------------------
Application state (src/app.rs, struct App) restricted to the fields read or
written by the embedded operations.
--------------------------------------------------------------------------- -/

/-- The fields of app::App that the embedded operations touch. -/
structure App where
  instances : List Instance
  grouped_instances : List GroupedInstances
  accounts : List Account
  servers : List Server
  selected_instance_index : Nat
  selected_account_index : Nat
  selected_server_index : Nat
  selected_group_index : Nat
  input_buffer : String
  error_message : Option String
  search_query : String
  filtered_instance_indices : List Nat
  filtered_account_indices : List Nat
  input_mode : InputMode
  sort_mode : SortMode
  sort_ascending : Bool
  collapsed_groups : List String
deriving DecidableEq

/-- The display key of a group: its name, or "Ungrouped" for the synthetic
bucket (group.group_name.as_deref().unwrap_or("Ungrouped")). -/
def groupKey (g : GroupedInstances) : String :=
  g.group_name.getD "Ungrouped"

/-- Total instance count over the non-collapsed groups; body of
App::visible_instance_count for a given collapsed set. -/
def visCountFrom (collapsed : List String) (gs : List GroupedInstances) : Nat :=
  ((gs.filter (fun g => !collapsed.contains (groupKey g))).map
    (fun g => g.instances.length)).sum

/-- Image of App::visible_instance_count (src/app.rs lines 347-356). -/
def App.visible_instance_count (app : App) : Nat :=
  visCountFrom app.collapsed_groups app.grouped_instances

/-- Image of App::set_error / App::clear_error. -/
def App.clear_error (app : App) : App :=
  { app with error_message := none }

/-- Loop body of App::visual_rows (src/app.rs lines 631-676): walk the groups
accumulating the visual instance index; a collapsed group contributes its
header only; a non-collapsed group contributes a header when one of its
members survives the filter, then one Instance row per surviving member. -/
def visualRowsAux (collapsed : List String) (filtered : List Nat) :
    List GroupedInstances → Nat → List VisualRow
  | [], _ => []
  | g :: gs, visualIdx =>
    if collapsed.contains (groupKey g) then
      VisualRow.GroupHeader (groupKey g) true g.instances.length ::
        visualRowsAux collapsed filtered gs visualIdx
    else
      (if (List.range g.instances.length).any (fun i => filtered.contains (visualIdx + i)) then
        [VisualRow.GroupHeader (groupKey g) false g.instances.length]
      else []) ++
      ((((List.range g.instances.length).map (fun i => visualIdx + i)).filter
          (fun v => filtered.contains v)).map VisualRow.Instance) ++
      visualRowsAux collapsed filtered gs (visualIdx + g.instances.length)

/-- Image of App::visual_rows. -/
def App.visual_rows (app : App) : List VisualRow :=
  visualRowsAux app.collapsed_groups app.filtered_instance_indices app.grouped_instances 0

/-- Discriminator for VisualRow::Instance rows. -/
def isInstanceRow : VisualRow → Bool
  | .Instance _ => true
  | .GroupHeader _ _ _ => false

/-- Image of App::selected_group_key. -/
def App.selected_group_key (app : App) : Option String :=
  (app.grouped_instances.get? app.selected_group_index).map groupKey

/-- Loop of App::first_instance_in_group (src/app.rs lines 588-612), with the
running group index replaced by a decreasing target counter: a collapsed
target yields None, an empty target yields None, otherwise the accumulated
visual count of the non-collapsed groups before the target. -/
def firstInstFrom (collapsed : List String) :
    List GroupedInstances → Nat → Nat → Option Nat
  | [], _, _ => none
  | g :: gs, target, visualCount =>
    if collapsed.contains (groupKey g) then
      if target = 0 then none else firstInstFrom collapsed gs (target - 1) visualCount
    else if target = 0 then
      if g.instances.isEmpty then none else some visualCount
    else
      firstInstFrom collapsed gs (target - 1) (visualCount + g.instances.length)

/-- Image of App::first_instance_in_group. -/
def App.first_instance_in_group (app : App) (groupIdx : Nat) : Option Nat :=
  firstInstFrom app.collapsed_groups app.grouped_instances groupIdx 0

/-- Loop of App::group_index_for_instance (src/app.rs lines 567-585). -/
def groupIndexAux (collapsed : List String) :
    List GroupedInstances → Nat → Nat → Nat → Nat
  | [], _, _, _ => 0
  | g :: gs, groupIdx, visualCount, target =>
    if collapsed.contains (groupKey g) then
      groupIndexAux collapsed gs (groupIdx + 1) visualCount target
    else
      let groupEnd := visualCount + g.instances.length
      if target < groupEnd then groupIdx
      else groupIndexAux collapsed gs (groupIdx + 1) groupEnd target

/-- Image of App::group_index_for_instance. -/
def App.group_index_for_instance (app : App) (instanceVisualIdx : Nat) : Nat :=
  groupIndexAux app.collapsed_groups app.grouped_instances 0 0 instanceVisualIdx

/-- Search predicate of App::update_search for one instance: case-insensitive
substring match against name, version, mod loader and group. -/
def searchMatches (query : String) (inst : Instance) : Bool :=
  strContainsSub inst.name.toLower query ||
  strContainsSub inst.minecraft_version.toLower query ||
  (match inst.mod_loader with
   | some l => strContainsSub l.toLower query
   | none => false) ||
  (match inst.group with
   | some g => strContainsSub g.toLower query
   | none => false)

/-- Instance filter loop of App::update_search (src/app.rs lines 404-439):
walk the non-collapsed groups keeping a running visible index, collecting the
indices of the matching instances. -/
def filterAux (collapsed : List String) (query : String) :
    List GroupedInstances → Nat → List Nat
  | [], _ => []
  | g :: gs, idx =>
    if collapsed.contains (groupKey g) then
      filterAux collapsed query gs idx
    else
      (((List.enumFrom idx g.instances).filter
          (fun p => searchMatches query p.2)).map Prod.fst) ++
        filterAux collapsed query gs (idx + g.instances.length)

/-- Image of App::update_search (src/app.rs lines 395-454). -/
def App.update_search (app : App) (query : String) : App :=
  let q := query.toLower
  let filteredInstances :=
    if q.isEmpty then
      List.range (visCountFrom app.collapsed_groups app.grouped_instances)
    else
      filterAux app.collapsed_groups q app.grouped_instances 0
  let filteredAccounts :=
    if q.isEmpty then
      List.range app.accounts.length
    else
      ((List.enumFrom 0 app.accounts).filter
        (fun p => strContainsSub p.2.username.toLower q)).map Prod.fst
  { app with
    search_query := q
    filtered_instance_indices := filteredInstances
    filtered_account_indices := filteredAccounts
    selected_instance_index := filteredInstances.head?.getD 0
    selected_account_index := filteredAccounts.head?.getD 0 }

/-- Comparator of App::sort_and_group_instances (src/app.rs lines 471-484). -/
def instanceCmp (mode : SortMode) (ascending : Bool) (a b : Instance) : Ordering :=
  let ord := match mode with
    | .LastPlayed => optCompare intCompare b.last_launch a.last_launch
    | .Name => strCompare a.name.toLower b.name.toLower
    | .Playtime => natCompare b.total_time_played a.total_time_played
    | .Version => strCompare a.minecraft_version b.minecraft_version
    | .ModLoader => strCompare (a.mod_loader.getD "") (b.mod_loader.getD "")
  if ascending then ord else ord.swap

/-- Image of app::group_instances (src/app.rs lines 693-722): bucket the
instances by group label, preserving instance order inside each bucket
(HashMap entry push order), then order the buckets: named groups sorted
alphabetically, the Ungrouped bucket last.  The HashMap's arbitrary iteration
order is irrelevant: the final sort on the pairwise-distinct keys fully
determines the bucket order. -/
def group_instances (instances : List Instance) : List GroupedInstances :=
  let keys := (instances.map (fun i => i.group)).dedup
  let namedKeys := stableSortBy strCompare (keys.filterMap id)
  namedKeys.map (fun n =>
    { group_name := some n, instances := instances.filter (fun i => i.group == some n) }) ++
    (if keys.contains none then
      [{ group_name := none, instances := instances.filter (fun i => i.group == none) }]
    else [])

/-- Image of App::sort_and_group_instances (src/app.rs lines 468-498). -/
def App.sort_and_group_instances (app : App) : App :=
  let instances' := stableSortBy (instanceCmp app.sort_mode app.sort_ascending) app.instances
  let grouped := group_instances instances'
  let sgi :=
    if !grouped.isEmpty && decide (grouped.length ≤ app.selected_group_index) then
      grouped.length - 1
    else app.selected_group_index
  let app' := { app with
    instances := instances'
    grouped_instances := grouped
    selected_group_index := sgi }
  { app' with
    filtered_instance_indices :=
      List.range (visCountFrom app'.collapsed_groups app'.grouped_instances) }

/-- Membership flip on the collapsed-group set (HashSet remove / insert in
update::toggle_group_collapse). -/
def toggleCollapsed (collapsed : List String) (key : String) : List String :=
  if collapsed.contains key then collapsed.filter (fun s => s != key)
  else key :: collapsed

/-- Image of update::toggle_group_collapse (src/update.rs lines 1149-1160):
flip the key's membership in the collapsed set, rebuild
filtered_instance_indices as the full visible range, clamp the selection. -/
def toggle_group_collapse (app : App) (key : String) : App :=
  let collapsed' := toggleCollapsed app.collapsed_groups key
  let count := visCountFrom collapsed' app.grouped_instances
  { app with
    collapsed_groups := collapsed'
    filtered_instance_indices := List.range count
    selected_instance_index :=
      if count ≤ app.selected_instance_index then count - 1
      else app.selected_instance_index }

/-- Image of update::update (src/update.rs) for the embedded messages.  Every
embedded message is a non-Tick input, so the transient error is cleared first
(src/update.rs lines 10-13); the Tick-driven process reconciliation is
modelled separately by poll_running_instances. -/
def update (app : App) (msg : Message) : App :=
  let app := app.clear_error
  match msg with
  | .SelectInstance idx =>
    if idx < app.visible_instance_count then
      { app with
        selected_instance_index := idx
        selected_group_index := app.group_index_for_instance idx }
    else app
  | .ConfirmDeleteServer =>
    let app :=
      if app.selected_server_index < app.servers.length then
        let servers' := app.servers.eraseIdx app.selected_server_index
        let sel :=
          if servers'.isEmpty then 0
          else if servers'.length ≤ app.selected_server_index then servers'.length - 1
          else app.selected_server_index
        { app with servers := servers', selected_server_index := sel }
      else app
    { app with input_mode := .Normal }
  | .CycleSortMode =>
    let app := { app with sort_mode := app.sort_mode.next }
    let app := app.sort_and_group_instances
    let app := { app with selected_instance_index := 0 }
    { app with selected_group_index := app.group_index_for_instance 0 }
  | .ToggleGroupCollapse =>
    match app.selected_group_key with
    | some key => toggle_group_collapse app key
    | none => app
  | .NextGroup =>
    let count := app.grouped_instances.length
    if count > 0 then
      let app := { app with selected_group_index := (app.selected_group_index + 1) % count }
      match app.first_instance_in_group app.selected_group_index with
      | some first => { app with selected_instance_index := first }
      | none => app
    else app
  | .PrevGroup =>
    let count := app.grouped_instances.length
    if count > 0 then
      let app := { app with
        selected_group_index :=
          if app.selected_group_index = 0 then count - 1
          else app.selected_group_index - 1 }
      match app.first_instance_in_group app.selected_group_index with
      | some first => { app with selected_instance_index := first }
      | none => app
    else app
  | .SearchChar c =>
    let app := { app with input_buffer := app.input_buffer.push c }
    app.update_search app.input_buffer

/- ---------------------------------------------------------------------------
Concrete states used by counterexamples and witnesses.
--------------------------------------------------------------------------- -/

/-- A quiescent application state with no data loaded. -/
def baseApp : App :=
  { instances := []
    grouped_instances := []
    accounts := []
    servers := []
    selected_instance_index := 0
    selected_account_index := 0
    selected_server_index := 0
    selected_group_index := 0
    input_buffer := ""
    error_message := none
    search_query := ""
    filtered_instance_indices := []
    filtered_account_indices := []
    input_mode := .Normal
    sort_mode := .LastPlayed
    sort_ascending := false
    collapsed_groups := [] }

/-- A sample instance in group G. -/
def instG1 : Instance :=
  { id := "g1", name := "One", path := "/inst/g1", group := some "G"
    minecraft_version := "1.20", mod_loader := none
    total_time_played := 0, last_launch := none }

/-- A second sample instance in group G. -/
def instG2 : Instance :=
  { instG1 with id := "g2", name := "Two", path := "/inst/g2" }

/-- A sample instance in group A. -/
def instA1 : Instance :=
  { instG1 with id := "a1", name := "A One", path := "/inst/a1", group := some "A" }

/-- A second sample instance in group A. -/
def instA2 : Instance :=
  { instG1 with id := "a2", name := "A Two", path := "/inst/a2", group := some "A" }

/-- A sample instance in group B. -/
def instB1 : Instance :=
  { instG1 with id := "b1", name := "B One", path := "/inst/b1", group := some "B" }

/-- One expanded group holding one instance, that instance selected. -/
def appOneGroup : App :=
  { baseApp with
    instances := [instG1]
    grouped_instances := [{ group_name := some "G", instances := [instG1] }]
    filtered_instance_indices := [0] }

/-- One expanded two-instance group with an active search filter that keeps
only the first instance. -/
def appFiltered : App :=
  { baseApp with
    instances := [instG1, instG2]
    grouped_instances := [{ group_name := some "G", instances := [instG1, instG2] }]
    search_query := "one"
    filtered_instance_indices := [0] }

/-- One expanded two-instance group with no filter active. -/
def appUnfiltered : App :=
  { appFiltered with
    search_query := ""
    filtered_instance_indices := [0, 1] }

/-- Same data as appFiltered, for the filter-discarding witness. -/
def appSearchActive : App :=
  { baseApp with
    instances := [instG1, instG2]
    grouped_instances := [{ group_name := some "G", instances := [instG1, instG2] }]
    search_query := "two"
    filtered_instance_indices := [1] }

/-- Two groups, the second collapsed, with the second instance of the first
group selected. -/
def appTwoGroups : App :=
  { baseApp with
    instances := [instA1, instA2, instB1]
    grouped_instances :=
      [{ group_name := some "A", instances := [instA1, instA2] },
       { group_name := some "B", instances := [instB1] }]
    collapsed_groups := ["B"]
    selected_group_index := 0
    selected_instance_index := 1
    filtered_instance_indices := [0, 1] }

/-- Two expanded groups with the second one selected (for wrap-around). -/
def appTwoGroupsOpen : App :=
  { baseApp with
    instances := [instA1, instA2, instB1]
    grouped_instances :=
      [{ group_name := some "A", instances := [instA1, instA2] },
       { group_name := some "B", instances := [instB1] }]
    selected_group_index := 1
    selected_instance_index := 2
    filtered_instance_indices := [0, 1, 2] }

/-- Five servers with the last one selected. -/
def appFiveServers : App :=
  { baseApp with
    servers :=
      [{ name := "s0", ip := "h0:1" }, { name := "s1", ip := "h1:1" },
       { name := "s2", ip := "h2:1" }, { name := "s3", ip := "h3:1" },
       { name := "s4", ip := "h4:1" }]
    selected_server_index := 4 }

/-- One visible instance and a pending transient error. -/
def appWithError : App :=
  { appOneGroup with error_message := some "Launch failed" }

/-- A region registered first (rendered below). -/
def regionBottom : ClickRegion :=
  { rect := { x := 0, y := 0, width := 10, height := 10 }, action := .SelectItem 0 }

/-- An overlapping region registered later (rendered on top). -/
def regionTop : ClickRegion :=
  { rect := { x := 5, y := 5, width := 10, height := 10 }, action := .SelectItem 1 }

/-- A process-match function that only matches instance id "a", to pid 7. -/
def exampleFound : String → Option Nat :=
  fun id => if id == "a" then some 7 else none

/-- A running-instance table: "a" launched and unmatched, "b" previously
matched to pid 3, "c" launched at time 50 and unmatched. -/
def exampleTable : List (String × RunningInstance) :=
  [("a", { pid := none, launched_at := 0 }),
   ("b", { pid := some 3, launched_at := 0 }),
   ("c", { pid := none, launched_at := 50 })]

/- ---------------------------------------------------------------------------
Helper lemmas.
--------------------------------------------------------------------------- -/

theorem snd_eq_of_nodup_keys {α β : Type} :
    ∀ (l : List (α × β)), (l.map Prod.fst).Nodup →
      ∀ {a : α} {b1 b2 : β}, (a, b1) ∈ l → (a, b2) ∈ l → b1 = b2 := by
  intro l
  induction l with
  | nil => intro _ _ _ _ h1 _; cases h1
  | cons e t ih =>
    intro hnd a b1 b2 h1 h2
    rw [List.map_cons, List.nodup_cons] at hnd
    rcases List.mem_cons.mp h1 with h1 | h1 <;> rcases List.mem_cons.mp h2 with h2 | h2
    · rw [← h1] at h2
      injection h2 with _ hb
      exact hb.symm
    · exfalso
      apply hnd.1
      rw [← h1]
      exact List.mem_map.mpr ⟨(a, b2), h2, rfl⟩
    · exfalso
      apply hnd.1
      rw [← h2]
      exact List.mem_map.mpr ⟨(a, b1), h1, rfl⟩
    · exact ih hnd.2 h1 h2

theorem rsplitLastColon_eq_none {cs : List Char} (h : ':' ∉ cs) :
    rsplitLastColon cs = none := by
  induction cs with
  | nil => rfl
  | cons c rest ih =>
    have hc : ¬ c = ':' := fun e => h (e ▸ List.mem_cons_self c rest)
    have hr : ':' ∉ rest := fun hm => h (List.mem_cons_of_mem c hm)
    simp [rsplitLastColon, ih hr, hc]

theorem rsplitLastColon_append (host port : List Char) (hp : ':' ∉ port) :
    rsplitLastColon (host ++ ':' :: port) = some (host, port) := by
  induction host with
  | nil => simp [rsplitLastColon, rsplitLastColon_eq_none hp]
  | cons c h ih => simp [rsplitLastColon, ih]

theorem takeLines_length_le : ∀ (fuel : Nat) (cs : List Char),
    (takeLines fuel cs).length ≤ fuel := by
  intro fuel
  induction fuel with
  | zero => intro cs; simp [takeLines]
  | succ n ih =>
    intro cs
    cases cs with
    | nil => simp [takeLines]
    | cons c cs =>
      rw [takeLines]
      cases hdrop : (c :: cs).drop ((c :: cs).takeWhile (fun ch => ch ≠ '\n')).length with
      | nil => simp [hdrop]
      | cons d rest =>
        simp only [hdrop, List.length_cons]
        exact Nat.succ_le_succ (ih rest)

theorem consumedBytes_le_length : ∀ (cs : List Char) (fuel : Nat),
    consumedBytes fuel cs ≤ cs.length := by
  intro cs
  induction cs with
  | nil => intro fuel; cases fuel <;> simp [consumedBytes]
  | cons c cs ih =>
    intro fuel
    cases fuel with
    | zero => simp [consumedBytes]
    | succ n =>
      rw [consumedBytes]
      by_cases hc : c = '\n'
      · rw [if_pos hc]
        have := ih n
        simp only [List.length_cons]
        omega
      · rw [if_neg hc]
        have := ih (n + 1)
        simp only [List.length_cons]
        omega

theorem consumedBytes_replicate (m : Nat) : ∀ (n : Nat),
    consumedBytes (m + 1) (List.replicate n 'a') = n := by
  intro n
  induction n with
  | zero => simp [consumedBytes]
  | succ k ih =>
    rw [List.replicate_succ]
    rw [consumedBytes]
    rw [if_neg (by decide)]
    rw [ih]
    omega

theorem takeLines_replicate (m n : Nat) :
    takeLines (m + 1) (List.replicate (n + 1) 'a') = [List.replicate (n + 1) 'a'] := by
  have htw : (List.replicate (n + 1) 'a').takeWhile (fun ch => ch ≠ '\n')
      = List.replicate (n + 1) 'a' := by
    rw [List.takeWhile_replicate]
    simp
  have hstrip : stripCR (List.replicate (n + 1) 'a') = List.replicate (n + 1) 'a' := by
    unfold stripCR
    rw [List.replicate_succ', List.getLast?_concat]
    rw [if_neg (by decide)]
  rw [List.replicate_succ]
  rw [takeLines]
  simp only [← List.replicate_succ, htw, List.drop_length, hstrip]

/- ---------------------------------------------------------------------------
C4: hit testing resolves to the last-registered containing rectangle.
--------------------------------------------------------------------------- -/

/-- C4: for every list of registered click regions and every point, hit
testing scans the registrations in reverse registration order and resolves to
the action of the last-registered rectangle containing the point (a rectangle
is last-registered containing iff every region registered after it misses the
point), or to no action when no rectangle contains it; in particular a point
inside two overlapping rectangles resolves to the one registered later. -/
theorem c4_hit_test_last_registered_wins :
    (∀ (pre post : List ClickRegion) (r : ClickRegion) (col row : Nat),
        rect_contains r.rect col row = true →
        (∀ r' ∈ post, rect_contains r'.rect col row = false) →
        hit_test (pre ++ r :: post) col row = some r.action)
    ∧ (∀ (regions : List ClickRegion) (col row : Nat),
        (∀ r ∈ regions, rect_contains r.rect col row = false) →
        hit_test regions col row = none) := by
  constructor
  · intro pre post r col row hr hpost
    unfold hit_test
    rw [List.reverse_append, List.reverse_cons, List.append_assoc, List.find?_append]
    have h1 : List.find? (fun r' => rect_contains r'.rect col row) post.reverse = none := by
      rw [List.find?_eq_none]
      intro x hx
      simp [hpost x (List.mem_reverse.mp hx)]
    rw [h1]
    have h2 : List.find? (fun r' => rect_contains r'.rect col row) (r :: pre.reverse) = some r :=
      List.find?_cons_of_pos _ hr
    show (List.find? (fun r' => rect_contains r'.rect col row) (r :: pre.reverse)).map
      (fun r => r.action) = some r.action
    rw [h2]
    rfl
  · intro regions col row h
    unfold hit_test
    have hnone : List.find? (fun r' => rect_contains r'.rect col row) regions.reverse = none := by
      rw [List.find?_eq_none]
      intro x hx
      simp [h x (List.mem_reverse.mp hx)]
    rw [hnone]
    rfl

/-- Witness for C4: the point (6, 6) lies in both example rectangles and
resolves to the action of the later-registered one. -/
theorem c4_witness :
    hit_test [regionBottom, regionTop] 6 6 = some (ClickAction.SelectItem 1) := by
  have h := c4_hit_test_last_registered_wins.1 [regionBottom] [] regionTop 6 6
    (by decide) (by intro r' hr'; cases hr')
  exact h

/- ---------------------------------------------------------------------------
C5: process reconciliation evicts exactly the dead and the timed-out entries.
--------------------------------------------------------------------------- -/

/-- C5: for every running-instance table (with the HashMap's unique keys) and
process snapshot result, reconciliation keeps a currently-matched entry with
its pid bound; evicts an entry whose previously bound pid has no match in the
current scan; evicts a never-matched entry whose launch is more than 30
seconds old; and keeps a never-matched entry within the grace period. -/
theorem c5_poll_evicts_exactly (found : String → Option Nat) (now : Nat)
    (table : List (String × RunningInstance))
    (hkeys : (table.map Prod.fst).Nodup) (id : String) (ri : RunningInstance)
    (hmem : (id, ri) ∈ table) :
    (∀ p, found id = some p →
        (id, { pid := some p, launched_at := ri.launched_at }) ∈
          poll_running_instances found now table)
    ∧ (found id = none → ri.pid ≠ none →
        ∀ ri2, (id, ri2) ∉ poll_running_instances found now table)
    ∧ (found id = none → ri.pid = none → launchGracePeriod < now - ri.launched_at →
        ∀ ri2, (id, ri2) ∉ poll_running_instances found now table)
    ∧ (found id = none → ri.pid = none → now - ri.launched_at ≤ launchGracePeriod →
        (id, ri) ∈ poll_running_instances found now table) := by
  have keyOfStep : ∀ (e : String × RunningInstance) (x : String × RunningInstance),
      (match found e.1 with
        | some pid => some (e.1, { pid := some pid, launched_at := e.2.launched_at })
        | none =>
          if e.2.pid.isSome then none
          else if launchGracePeriod < now - e.2.launched_at then none
          else some e) = some x → x.1 = e.1 := by
    intro e x hx
    cases hf : found e.1 with
    | some p =>
      rw [hf] at hx
      injection hx with hx
      rw [← hx]
    | none =>
      rw [hf] at hx
      by_cases h1 : e.2.pid.isSome
      · rw [if_pos h1] at hx; cases hx
      · rw [if_neg h1] at hx
        by_cases h2 : launchGracePeriod < now - e.2.launched_at
        · rw [if_pos h2] at hx; cases hx
        · rw [if_neg h2] at hx
          injection hx with hx
          rw [← hx]
  have notMem : ∀ (hstep : (match found id with
        | some pid => some (id, { pid := some pid, launched_at := ri.launched_at })
        | none =>
          if ri.pid.isSome then none
          else if launchGracePeriod < now - ri.launched_at then none
          else some (id, ri)) = none),
      ∀ ri2, (id, ri2) ∉ poll_running_instances found now table := by
    intro hstep ri2 hmem2
    obtain ⟨e, he, hfe⟩ := List.mem_filterMap.mp hmem2
    have hkey : id = e.1 := keyOfStep e (id, ri2) hfe
    obtain ⟨e1, e2⟩ := e
    simp only at hkey
    subst hkey
    have : e2 = ri := snd_eq_of_nodup_keys table hkeys he hmem
    subst this
    rw [hstep] at hfe
    cases hfe
  refine ⟨?_, ?_, ?_, ?_⟩
  · intro p hp
    apply List.mem_filterMap.mpr
    refine ⟨(id, ri), hmem, ?_⟩
    simp only [hp]
  · intro hnone hpid ri2
    apply notMem
    rw [hnone]
    rw [if_pos (Option.ne_none_iff_isSome.mp hpid)]
  · intro hnone hpid htime ri2
    apply notMem
    rw [hnone, hpid]
    simp only [Option.isSome_none, Bool.false_eq_true, if_false, if_pos htime]
  · intro hnone hpid htime
    apply List.mem_filterMap.mpr
    refine ⟨(id, ri), hmem, ?_⟩
    simp only [hnone, hpid, Option.isSome_none, Bool.false_eq_true, if_false,
      if_neg (Nat.not_lt.mpr htime)]

/-- Witness for C5: in the example table the matched entry "a" is kept with
pid 7 bound. -/
theorem c5_witness :
    ("a", { pid := some 7, launched_at := 0 : RunningInstance }) ∈
      poll_running_instances exampleFound 100 exampleTable := by
  have h := c5_poll_evicts_exactly exampleFound 100 exampleTable (by decide)
    "a" { pid := none, launched_at := 0 } (by decide)
  exact h.1 7 (by decide)

/- ---------------------------------------------------------------------------
C6: server address validation.
--------------------------------------------------------------------------- -/

/-- Counterexample for C6: the claim says every address containing whitespace
is rejected, but the code only checks for the space character: the address
containing a tab is accepted. -/
theorem c6_counterexample :
    validate_server_address "a\tb.com" = .ok ()
    ∧ '\t' ∈ "a\tb.com".data ∧ '\t'.isWhitespace = true := by
  refine ⟨rfl, by decide, by decide⟩

/-- C6 (amended): validation rejects the empty address, every address
containing a space character (rather than arbitrary whitespace), and every
address with a colon whose suffix after the last colon does not parse as a
u16 port; it accepts "mc.example.com:25565", and rejects the four listed
examples. -/
theorem c6_validate_amended :
    validate_server_address "" = .error "Server address cannot be empty"
    ∧ (∀ cs : List Char, ' ' ∈ cs → (validateChars cs).isOk = false)
    ∧ (validate_server_address "a b.com").isOk = false
    ∧ (validate_server_address "host:abc").isOk = false
    ∧ (validate_server_address ":25565").isOk = false
    ∧ (∀ host port : List Char, ':' ∉ port → parseU16 port = none →
        (validateChars (host ++ ':' :: port)).isOk = false)
    ∧ validate_server_address "mc.example.com:25565" = .ok () := by
  refine ⟨rfl, ?_, rfl, rfl, rfl, ?_, rfl⟩
  · intro cs h
    have hne : cs ≠ [] := by rintro rfl; cases h
    have hcont : cs.contains ' ' = true := by
      rw [List.contains, List.elem_eq_mem]
      exact decide_eq_true h
    rw [validateChars]
    rw [if_neg (by rw [List.isEmpty_iff]; exact hne)]
    rw [if_pos hcont]
    rfl
  · intro host port hp hparse
    rw [validateChars]
    rw [if_neg (by simp [List.isEmpty_iff])]
    by_cases hsp : (host ++ ':' :: port).contains ' '
    · rw [if_pos hsp]; rfl
    · rw [if_neg hsp]
      rw [rsplitLastColon_append host port hp]
      simp only [hparse]
      rfl

/-- Witness for C6 (amended): a concrete address with a non-numeric suffix
after its last colon is rejected. -/
theorem c6_witness : (validateChars ("h".data ++ ':' :: "xy".data)).isOk = false :=
  c6_validate_amended.2.2.2.2.2.1 "h".data "xy".data (by decide) (by decide)

/- ---------------------------------------------------------------------------
C8: log content loading bounds.
--------------------------------------------------------------------------- -/

/-- Counterexample for C8: the claim says bytes consumed are capped for
compressed and plain files alike, but the plain branch has no byte cap: a
plain log consisting of a single line one byte over MAX_LOG_SIZE is consumed
and returned whole. -/
theorem c8_counterexample :
    ¬ (consumedBytes MAX_LOG_LINES (List.replicate (MAX_LOG_SIZE + 1) 'a') ≤ MAX_LOG_SIZE)
    ∧ load_log_content false (List.replicate (MAX_LOG_SIZE + 1) 'a')
        = [List.replicate (MAX_LOG_SIZE + 1) 'a'] := by
  constructor
  · have h := consumedBytes_replicate (MAX_LOG_LINES - 1) (MAX_LOG_SIZE + 1)
    have he : MAX_LOG_LINES - 1 + 1 = MAX_LOG_LINES := by rfl
    rw [he] at h
    rw [h]
    simp [MAX_LOG_SIZE]
  · unfold load_log_content
    rw [if_neg (by decide)]
    have he : MAX_LOG_LINES - 1 + 1 = MAX_LOG_LINES := by rfl
    rw [← he]
    exact takeLines_replicate (MAX_LOG_LINES - 1) MAX_LOG_SIZE

/-- C8 (amended): for every log file input the returned line list never
exceeds MAX_LOG_LINES, for compressed and plain files alike; the byte cap
holds for the compressed branch, whose reader consumes at most MAX_LOG_SIZE
decompressed bytes. -/
theorem c8_load_log_content_bounded (isGz : Bool) (content : List Char) :
    (load_log_content isGz content).length ≤ MAX_LOG_LINES
    ∧ (isGz = true →
        consumedBytes MAX_LOG_LINES (content.take MAX_LOG_SIZE) ≤ MAX_LOG_SIZE) := by
  constructor
  · rw [load_log_content]
    by_cases h : isGz = true
    · rw [if_pos h]
      exact takeLines_length_le _ _
    · rw [if_neg h]
      exact takeLines_length_le _ _
  · intro _
    calc consumedBytes MAX_LOG_LINES (content.take MAX_LOG_SIZE)
        ≤ (content.take MAX_LOG_SIZE).length := consumedBytes_le_length _ _
      _ ≤ MAX_LOG_SIZE := by
          rw [List.length_take]
          exact min_le_left _ _

/-- Witness for C8 (amended): the compressed branch at a small concrete
content satisfies both bounds. -/
theorem c8_witness :
    (load_log_content true (List.replicate 5 'a')).length ≤ MAX_LOG_LINES
    ∧ consumedBytes MAX_LOG_LINES ((List.replicate 5 'a').take MAX_LOG_SIZE) ≤ MAX_LOG_SIZE :=
  ⟨(c8_load_log_content_bounded true (List.replicate 5 'a')).1,
   (c8_load_log_content_bounded true (List.replicate 5 'a')).2 rfl⟩

/- ---------------------------------------------------------------------------
C1: the Instance-row count of visual_rows.
--------------------------------------------------------------------------- -/

theorem countP_map_instance (l : List Nat) :
    (l.map VisualRow.Instance).countP isInstanceRow = l.length := by
  rw [List.countP_map]
  simp [Function.comp, isInstanceRow]

theorem range_map_add (s m n : Nat) :
    (List.range (m + n)).map (fun i => s + i)
      = (List.range m).map (fun i => s + i) ++ (List.range n).map (fun i => s + m + i) := by
  rw [List.range_add, List.map_append, List.map_map]
  refine congrArg _ ?_
  refine List.map_congr_left ?_
  intro x _
  simp [Function.comp]
  omega

theorem countP_visualRowsAux (c : List String) (f : List Nat) :
    ∀ (gs : List GroupedInstances) (s : Nat),
      (visualRowsAux c f gs s).countP isInstanceRow
        = (((List.range (visCountFrom c gs)).map (fun i => s + i)).filter
            (fun v => f.contains v)).length := by
  intro gs
  induction gs with
  | nil =>
    intro s
    simp [visualRowsAux, visCountFrom]
  | cons g gs ih =>
    intro s
    rw [visualRowsAux]
    cases hc : c.contains (groupKey g) with
    | true =>
      rw [if_pos rfl]
      rw [List.countP_cons_of_neg _ _ (by simp [isInstanceRow])]
      rw [ih s]
      have hv : visCountFrom c (g :: gs) = visCountFrom c gs := by
        rw [visCountFrom, visCountFrom, List.filter_cons, hc]
        simp
      rw [hv]
    | false =>
      rw [if_neg (by decide)]
      rw [List.countP_append, List.countP_append]
      have hheader : (if (List.range g.instances.length).any
            (fun i => f.contains (s + i)) then
            [VisualRow.GroupHeader (groupKey g) false g.instances.length]
          else ([] : List VisualRow)).countP isInstanceRow = 0 := by
        by_cases h : (List.range g.instances.length).any (fun i => f.contains (s + i))
        · rw [if_pos h]; simp [isInstanceRow]
        · rw [if_neg h]; rfl
      rw [hheader, countP_map_instance, ih]
      have hv : visCountFrom c (g :: gs) = g.instances.length + visCountFrom c gs := by
        rw [visCountFrom, visCountFrom, List.filter_cons, hc]
        simp
      rw [hv, range_map_add, List.filter_append, List.length_append]
      omega

/-- C1: for every application state (hence for every combination of
collapsed-group set and filter list), the number of VisualRow.Instance rows
in visual_rows equals the number of instances lying in a non-collapsed group
whose visible index is in filtered_instance_indices: those instances carry
exactly the visible indices 0 .. visible_instance_count - 1, so the count is
the number of such indices passing the filter-membership test. -/
theorem c1_visual_rows_instance_count (app : App) :
    app.visual_rows.countP isInstanceRow
      = ((List.range app.visible_instance_count).filter
          (fun v => app.filtered_instance_indices.contains v)).length := by
  rw [App.visual_rows, App.visible_instance_count]
  rw [countP_visualRowsAux]
  refine congrArg _ ?_
  refine congrArg _ ?_
  have : (fun i => 0 + i) = fun i : Nat => i := by
    funext i
    omega
  rw [this, List.map_id']

/- ---------------------------------------------------------------------------
C3: toggling a group's collapse state twice.
--------------------------------------------------------------------------- -/

theorem contains_congr_of_mem_iff {c1 c2 : List String}
    (h : ∀ k, k ∈ c1 ↔ k ∈ c2) : ∀ k, c1.contains k = c2.contains k := by
  intro k
  rw [show c1.contains k = List.elem k c1 from rfl, List.elem_eq_mem]
  rw [show c2.contains k = List.elem k c2 from rfl, List.elem_eq_mem]
  exact decide_eq_decide.mpr (h k)

theorem mem_toggle_toggle (c : List String) (key k : String) :
    k ∈ toggleCollapsed (toggleCollapsed c key) key ↔ k ∈ c := by
  by_cases hmem : key ∈ c
  · have hc : c.contains key = true := by
      rw [show c.contains key = List.elem key c from rfl, List.elem_eq_mem]
      exact decide_eq_true hmem
    have e1 : toggleCollapsed c key = c.filter (fun s => s != key) := by
      rw [toggleCollapsed, if_pos hc]
    have hc1 : (c.filter (fun s => s != key)).contains key = false := by
      rw [show (c.filter (fun s => s != key)).contains key
          = List.elem key (c.filter (fun s => s != key)) from rfl, List.elem_eq_mem]
      apply decide_eq_false
      intro hmem2
      rcases List.mem_filter.mp hmem2 with ⟨_, hbe⟩
      simp at hbe
    have e2 : toggleCollapsed (c.filter (fun s => s != key)) key
        = key :: c.filter (fun s => s != key) := by
      rw [toggleCollapsed, if_neg (by rw [hc1]; decide)]
    rw [e1, e2]
    rw [List.mem_cons, List.mem_filter]
    constructor
    · rintro (rfl | ⟨hk, _⟩)
      · exact hmem
      · exact hk
    · intro hk
      by_cases hkk : k = key
      · left; exact hkk
      · right
        refine ⟨hk, ?_⟩
        simp [hkk]
  · have hc : c.contains key = false := by
      rw [show c.contains key = List.elem key c from rfl, List.elem_eq_mem]
      exact decide_eq_false hmem
    have e1 : toggleCollapsed c key = key :: c := by
      rw [toggleCollapsed, if_neg (by rw [hc]; decide)]
    have hc1 : (key :: c).contains key = true := by
      rw [List.contains_cons]
      simp
    have e2 : toggleCollapsed (key :: c) key = (key :: c).filter (fun s => s != key) := by
      rw [toggleCollapsed, if_pos hc1]
    rw [e1, e2]
    rw [List.filter_cons]
    rw [if_neg (by simp)]
    have hself : c.filter (fun s => s != key) = c := by
      apply List.filter_eq_self.mpr
      intro a ha
      simp only [bne_iff_ne, ne_eq, decide_eq_true_eq]
      intro h
      exact hmem (h ▸ ha)
    rw [hself]

theorem visCountFrom_congr {c1 c2 : List String}
    (h : ∀ k, c1.contains k = c2.contains k) (gs : List GroupedInstances) :
    visCountFrom c1 gs = visCountFrom c2 gs := by
  rw [visCountFrom, visCountFrom]
  refine congrArg _ ?_
  refine congrArg _ ?_
  apply List.filter_congr
  intro g _
  rw [h (groupKey g)]

theorem visualRowsAux_congr {c1 c2 : List String} (f : List Nat)
    (h : ∀ k, c1.contains k = c2.contains k) :
    ∀ (gs : List GroupedInstances) (s : Nat),
      visualRowsAux c1 f gs s = visualRowsAux c2 f gs s := by
  intro gs
  induction gs with
  | nil => intro s; rfl
  | cons g gs ih =>
    intro s
    rw [visualRowsAux, visualRowsAux, h (groupKey g)]
    simp only [ih]

/-- Counterexample for C3: with an active search filter, toggling the same
group twice resets filtered_instance_indices to the full visible range, so
the visible row sequence gains the filtered-out rows. -/
theorem c3_counterexample :
    (toggle_group_collapse (toggle_group_collapse appFiltered "G") "G").visual_rows
      ≠ appFiltered.visual_rows := by decide

/-- C3 (amended): applying toggle_group_collapse twice with the same key
restores the visual row sequence provided no search filter is active, that
is, filtered_instance_indices is the full visible range; with an active
filter the double toggle discards it. -/
theorem c3_toggle_twice_rows (app : App) (key : String)
    (hf : app.filtered_instance_indices = List.range app.visible_instance_count) :
    (toggle_group_collapse (toggle_group_collapse app key) key).visual_rows
      = app.visual_rows := by
  have hcont : ∀ k,
      (toggleCollapsed (toggleCollapsed app.collapsed_groups key) key).contains k
        = app.collapsed_groups.contains k :=
    contains_congr_of_mem_iff (fun k => mem_toggle_toggle app.collapsed_groups key k)
  have hcount : visCountFrom (toggleCollapsed (toggleCollapsed app.collapsed_groups key) key)
      app.grouped_instances = visCountFrom app.collapsed_groups app.grouped_instances :=
    visCountFrom_congr hcont app.grouped_instances
  show visualRowsAux (toggleCollapsed (toggleCollapsed app.collapsed_groups key) key)
      (List.range (visCountFrom (toggleCollapsed (toggleCollapsed app.collapsed_groups key) key)
        app.grouped_instances))
      app.grouped_instances 0
    = app.visual_rows
  rw [hcount]
  rw [visualRowsAux_congr _ hcont app.grouped_instances 0]
  rw [App.visual_rows, hf, App.visible_instance_count]

/-- Witness for C3 (amended): with no filter active, the double toggle
restores the row sequence of the concrete two-instance state. -/
theorem c3_witness :
    (toggle_group_collapse (toggle_group_collapse appUnfiltered "G") "G").visual_rows
      = appUnfiltered.visual_rows :=
  c3_toggle_twice_rows appUnfiltered "G" (by decide)

/- ---------------------------------------------------------------------------
C2: selection stays within the visible count after mutating operations.
--------------------------------------------------------------------------- -/

theorem visCountFrom_cons_true {c : List String} {g : GroupedInstances}
    (hc : c.contains (groupKey g) = true) (gs : List GroupedInstances) :
    visCountFrom c (g :: gs) = visCountFrom c gs := by
  rw [visCountFrom, visCountFrom, List.filter_cons, hc]
  simp

theorem visCountFrom_cons_false {c : List String} {g : GroupedInstances}
    (hc : c.contains (groupKey g) = false) (gs : List GroupedInstances) :
    visCountFrom c (g :: gs) = g.instances.length + visCountFrom c gs := by
  rw [visCountFrom, visCountFrom, List.filter_cons, hc]
  simp

theorem mem_filterAux_lt (c : List String) (q : String) :
    ∀ (gs : List GroupedInstances) (s v : Nat),
      v ∈ filterAux c q gs s → v < s + visCountFrom c gs := by
  intro gs
  induction gs with
  | nil =>
    intro s v hv
    rw [filterAux] at hv
    cases hv
  | cons g gs ih =>
    intro s v hv
    rw [filterAux] at hv
    cases hc : c.contains (groupKey g) with
    | true =>
      rw [hc] at hv
      rw [if_pos rfl] at hv
      have := ih s v hv
      rw [visCountFrom_cons_true hc]
      exact this
    | false =>
      rw [hc] at hv
      rw [if_neg (by decide)] at hv
      rw [visCountFrom_cons_false hc]
      rcases List.mem_append.mp hv with hv | hv
      · rcases List.mem_map.mp hv with ⟨p, hp, rfl⟩
        obtain ⟨i, inst⟩ := p
        have hp2 := (List.mem_filter.mp hp).1
        have hb := List.mem_enumFrom hp2
        have : i < s + g.instances.length := hb.2.1
        omega
      · have := ih (s + g.instances.length) v hv
        omega

theorem range_head?_pos {n : Nat} (h : 0 < n) : (List.range n).head? = some 0 := by
  cases n with
  | zero => omega
  | succ m =>
    rw [List.range_succ_eq_map]
    rfl

/-- Counterexample for C2: collapsing the only group leaves zero visible
instances while the selection index is reset to 0, so the selection is not
strictly below the visible count. -/
theorem c2_counterexample :
    ¬ ((toggle_group_collapse appOneGroup "G").selected_instance_index
        < (toggle_group_collapse appOneGroup "G").visible_instance_count) := by decide

/-- C2 (amended): after each mutating operation (collapse toggle, search
edit, sort cycle, server delete from a valid selection) the selected index is
strictly below the visible count whenever that count is positive; when the
visible collection becomes empty the selection is clamped to 0 instead; in
particular deleting the last of 5 servers clamps the selection to index 3. -/
theorem c2_selection_clamped :
    (∀ (app : App) (key : String),
        (toggle_group_collapse app key).selected_instance_index
            < (toggle_group_collapse app key).visible_instance_count
          ∨ ((toggle_group_collapse app key).visible_instance_count = 0
              ∧ (toggle_group_collapse app key).selected_instance_index = 0))
    ∧ (∀ (app : App) (query : String),
        (app.update_search query).selected_instance_index
            < (app.update_search query).visible_instance_count
          ∨ ((app.update_search query).visible_instance_count = 0
              ∧ (app.update_search query).selected_instance_index = 0))
    ∧ (∀ app : App,
        (update app Message.CycleSortMode).selected_instance_index
            < (update app Message.CycleSortMode).visible_instance_count
          ∨ ((update app Message.CycleSortMode).visible_instance_count = 0
              ∧ (update app Message.CycleSortMode).selected_instance_index = 0))
    ∧ (∀ app : App, app.selected_server_index < app.servers.length →
        ((update app Message.ConfirmDeleteServer).selected_server_index
            < (update app Message.ConfirmDeleteServer).servers.length
          ∨ ((update app Message.ConfirmDeleteServer).servers = []
              ∧ (update app Message.ConfirmDeleteServer).selected_server_index = 0)))
    ∧ (update appFiveServers Message.ConfirmDeleteServer).selected_server_index = 3 := by
  refine ⟨?_, ?_, ?_, ?_, by decide⟩
  · intro app key
    show (if visCountFrom (toggleCollapsed app.collapsed_groups key) app.grouped_instances
            ≤ app.selected_instance_index then
          visCountFrom (toggleCollapsed app.collapsed_groups key) app.grouped_instances - 1
        else app.selected_instance_index)
        < visCountFrom (toggleCollapsed app.collapsed_groups key) app.grouped_instances
      ∨ (visCountFrom (toggleCollapsed app.collapsed_groups key) app.grouped_instances = 0
          ∧ (if visCountFrom (toggleCollapsed app.collapsed_groups key) app.grouped_instances
                ≤ app.selected_instance_index then
              visCountFrom (toggleCollapsed app.collapsed_groups key) app.grouped_instances - 1
            else app.selected_instance_index) = 0)
    set n := visCountFrom (toggleCollapsed app.collapsed_groups key) app.grouped_instances with hn
    by_cases h : n ≤ app.selected_instance_index
    · rw [if_pos h]
      rcases Nat.eq_zero_or_pos n with h0 | h0
      · right
        exact ⟨h0, by omega⟩
      · left
        omega
    · rw [if_neg h]
      left
      omega
  · intro app query
    show (if (query.toLower).isEmpty then
            List.range (visCountFrom app.collapsed_groups app.grouped_instances)
          else filterAux app.collapsed_groups query.toLower app.grouped_instances 0).head?.getD 0
        < visCountFrom app.collapsed_groups app.grouped_instances
      ∨ (visCountFrom app.collapsed_groups app.grouped_instances = 0
          ∧ (if (query.toLower).isEmpty then
              List.range (visCountFrom app.collapsed_groups app.grouped_instances)
            else filterAux app.collapsed_groups query.toLower app.grouped_instances 0).head?.getD 0
            = 0)
    set n := visCountFrom app.collapsed_groups app.grouped_instances with hn
    by_cases hq : (query.toLower).isEmpty
    · rw [if_pos hq]
      rcases Nat.eq_zero_or_pos n with h0 | h0
      · right
        rw [h0]
        exact ⟨rfl, rfl⟩
      · left
        rw [range_head?_pos h0]
        simpa using h0
    · rw [if_neg hq]
      cases hh : (filterAux app.collapsed_groups query.toLower app.grouped_instances 0).head? with
      | none =>
        rcases Nat.eq_zero_or_pos n with h0 | h0
        · right
          exact ⟨h0, rfl⟩
        · left
          simpa using h0
      | some v =>
        have hvmem : v ∈ filterAux app.collapsed_groups query.toLower app.grouped_instances 0 := by
          apply List.mem_of_mem_head?
          rw [hh]
          rfl
        have hlt := mem_filterAux_lt app.collapsed_groups query.toLower
          app.grouped_instances 0 v hvmem
        left
        simpa using hlt
  · intro app
    have hsel : (update app Message.CycleSortMode).selected_instance_index = 0 := rfl
    rcases Nat.eq_zero_or_pos (update app Message.CycleSortMode).visible_instance_count
      with h0 | h0
    · right
      exact ⟨h0, hsel⟩
    · left
      rw [hsel]
      exact h0
  · intro app h
    simp only [update, App.clear_error]
    rw [if_pos h]
    set m := app.servers.eraseIdx app.selected_server_index with hm
    by_cases he : m.isEmpty
    · right
      rw [if_pos he]
      exact ⟨List.isEmpty_iff.mp he, rfl⟩
    · left
      have hne : m ≠ [] := List.isEmpty_eq_false.mp (Bool.not_eq_true _ ▸ he : m.isEmpty = false)
      have hpos : 0 < m.length := List.length_pos.mpr hne
      rw [if_neg he]
      by_cases hle : m.length ≤ app.selected_server_index
      · rw [if_pos hle]
        show m.length - 1 < m.length
        omega
      · rw [if_neg hle]
        show app.selected_server_index < m.length
        omega

/-- Witness for C2 (amended): deleting from the five-server state keeps the
selection below the new server count. -/
theorem c2_witness :
    (update appFiveServers Message.ConfirmDeleteServer).selected_server_index
        < (update appFiveServers Message.ConfirmDeleteServer).servers.length
      ∨ ((update appFiveServers Message.ConfirmDeleteServer).servers = []
          ∧ (update appFiveServers Message.ConfirmDeleteServer).selected_server_index = 0) :=
  c2_selection_clamped.2.2.2.1 appFiveServers (by decide)

/- ---------------------------------------------------------------------------
C9: toggle_group_collapse discards an active search filter.
--------------------------------------------------------------------------- -/

/-- C9: for every state with a non-empty search query whose filtered instance
list is a strict subset of the visible range, toggle_group_collapse replaces
filtered_instance_indices with the full range 0 .. visible_instance_count of
the resulting state, discarding the active filter, while search_query itself
is left unchanged. -/
theorem c9_toggle_discards_filter (app : App) (key : String)
    (hq : app.search_query ≠ "")
    (hsub : app.filtered_instance_indices ≠ List.range app.visible_instance_count) :
    (toggle_group_collapse app key).filtered_instance_indices
        = List.range (toggle_group_collapse app key).visible_instance_count
      ∧ (toggle_group_collapse app key).search_query = app.search_query :=
  ⟨rfl, rfl⟩

/-- Witness for C9: a concrete state with query "two" filtering 2 instances
down to 1. -/
theorem c9_witness :
    (toggle_group_collapse appSearchActive "G").filtered_instance_indices
        = List.range (toggle_group_collapse appSearchActive "G").visible_instance_count
      ∧ (toggle_group_collapse appSearchActive "G").search_query
        = appSearchActive.search_query :=
  c9_toggle_discards_filter appSearchActive "G" (by decide) (by decide)

/- ---------------------------------------------------------------------------
C10: out-of-range SelectInstance only clears the transient error.
--------------------------------------------------------------------------- -/

/-- C10: for every state and index at or beyond the visible instance count,
update with SelectInstance leaves selected_instance_index and
selected_group_index (and every other field) unchanged except error_message,
which is cleared. -/
theorem c10_select_out_of_range (app : App) (idx : Nat)
    (h : app.visible_instance_count ≤ idx) :
    update app (Message.SelectInstance idx) = { app with error_message := none } := by
  simp only [update]
  rw [if_neg (Nat.not_lt.mpr h : ¬ idx < (App.clear_error app).visible_instance_count)]
  rfl

/-- Witness for C10: selecting index 5 in a one-instance state only clears
the pending error. -/
theorem c10_witness :
    update appWithError (Message.SelectInstance 5)
      = { appWithError with error_message := none } :=
  c10_select_out_of_range appWithError 5 (by decide)

/- ---------------------------------------------------------------------------
C7: group navigation.
--------------------------------------------------------------------------- -/

theorem mem_of_contains_eq_true {c : List String} {k : String}
    (h : c.contains k = true) : k ∈ c := by
  rw [show c.contains k = List.elem k c from rfl, List.elem_eq_mem] at h
  exact of_decide_eq_true h

theorem not_mem_of_contains_eq_false {c : List String} {k : String}
    (h : c.contains k = false) : k ∉ c := by
  rw [show c.contains k = List.elem k c from rfl, List.elem_eq_mem] at h
  exact of_decide_eq_false h

theorem firstInstFrom_eq (c : List String) :
    ∀ (gs : List GroupedInstances) (t v : Nat),
      firstInstFrom c gs t v
        = (gs.get? t).bind (fun g =>
            if c.contains (groupKey g) || g.instances.isEmpty then none
            else some (v + visCountFrom c (gs.take t))) := by
  intro gs
  induction gs with
  | nil => intro t v; rfl
  | cons g gs ih =>
    intro t v
    cases t with
    | zero =>
      rw [firstInstFrom]
      rw [List.get?_cons_zero]
      cases hc : c.contains (groupKey g) with
      | true => simp [mem_of_contains_eq_true hc]
      | false => simp [not_mem_of_contains_eq_false hc, visCountFrom]
    | succ t =>
      rw [firstInstFrom]
      rw [List.get?_cons_succ, List.take_succ_cons]
      cases hc : c.contains (groupKey g) with
      | true =>
        rw [if_pos rfl, if_neg (Nat.succ_ne_zero t)]
        simp only [Nat.add_sub_cancel]
        rw [ih t v]
        cases hget : gs.get? t with
        | none => rfl
        | some g2 =>
          simp only [Option.some_bind]
          rw [visCountFrom_cons_true hc]
      | false =>
        rw [if_neg (show ¬ (false = true) by decide), if_neg (Nat.succ_ne_zero t)]
        simp only [Nat.add_sub_cancel]
        rw [ih t (v + g.instances.length)]
        cases hget : gs.get? t with
        | none => rfl
        | some g2 =>
          simp only [Option.some_bind]
          rw [visCountFrom_cons_false hc]
          rw [Nat.add_assoc]

/-- Counterexample for C7: from the first group, NextGroup lands on the
collapsed second group instead of skipping it: the group index advances to
the collapsed group, which has no visible member, and the selection stays at
index 1, which is not the first visible member of any group (the only group
with visible members has first member 0). -/
theorem c7_counterexample :
    (update appTwoGroups Message.NextGroup).selected_group_index = 1
    ∧ (appTwoGroups.grouped_instances.get? 1).map groupKey = some "B"
    ∧ appTwoGroups.collapsed_groups.contains "B" = true
    ∧ (update appTwoGroups Message.NextGroup).selected_instance_index = 1
    ∧ appTwoGroups.first_instance_in_group 1 = none
    ∧ appTwoGroups.first_instance_in_group 0 = some 0 := by decide

/-- C7 (amended): with at least one group, NextGroup and PrevGroup wrap the
selected group index circularly through all groups (collapsed ones included,
they are not skipped); when the target group is non-collapsed and non-empty,
the selection moves to its first visible member (the visible count of the
non-collapsed groups before it); when the target group is collapsed or empty
the selection is left unchanged rather than skipped to another group.  With
no groups, both operations only clear the transient error. -/
theorem c7_group_navigation_amended (app : App) :
    (app.grouped_instances = [] →
        update app Message.NextGroup = app.clear_error
        ∧ update app Message.PrevGroup = app.clear_error)
    ∧ (app.grouped_instances ≠ [] →
        ((update app Message.NextGroup).selected_group_index
            = (app.selected_group_index + 1) % app.grouped_instances.length
         ∧ (update app Message.PrevGroup).selected_group_index
            = (if app.selected_group_index = 0 then app.grouped_instances.length - 1
               else app.selected_group_index - 1)
         ∧ (∀ g, app.grouped_instances.get?
                ((app.selected_group_index + 1) % app.grouped_instances.length) = some g →
              app.collapsed_groups.contains (groupKey g) = false →
              g.instances ≠ [] →
              (update app Message.NextGroup).selected_instance_index
                = visCountFrom app.collapsed_groups
                    (app.grouped_instances.take
                      ((app.selected_group_index + 1) % app.grouped_instances.length)))
         ∧ (∀ g, app.grouped_instances.get?
                ((app.selected_group_index + 1) % app.grouped_instances.length) = some g →
              (app.collapsed_groups.contains (groupKey g) = true ∨ g.instances = []) →
              (update app Message.NextGroup).selected_instance_index
                = app.selected_instance_index)
         ∧ (∀ g, app.grouped_instances.get?
                (if app.selected_group_index = 0 then app.grouped_instances.length - 1
                 else app.selected_group_index - 1) = some g →
              app.collapsed_groups.contains (groupKey g) = false →
              g.instances ≠ [] →
              (update app Message.PrevGroup).selected_instance_index
                = visCountFrom app.collapsed_groups
                    (app.grouped_instances.take
                      (if app.selected_group_index = 0 then app.grouped_instances.length - 1
                       else app.selected_group_index - 1)))
         ∧ (∀ g, app.grouped_instances.get?
                (if app.selected_group_index = 0 then app.grouped_instances.length - 1
                 else app.selected_group_index - 1) = some g →
              (app.collapsed_groups.contains (groupKey g) = true ∨ g.instances = []) →
              (update app Message.PrevGroup).selected_instance_index
                = app.selected_instance_index))) := by
  constructor
  · intro h
    constructor
    · simp only [update, App.clear_error]
      rw [if_neg (by simp [h])]
    · simp only [update, App.clear_error]
      rw [if_neg (by simp [h])]
  · intro h
    have hlen : 0 < app.grouped_instances.length := List.length_pos.mpr h
    refine ⟨?_, ?_, ?_, ?_, ?_, ?_⟩
    · simp only [update, App.clear_error, App.first_instance_in_group]
      rw [if_pos hlen]
      cases hfi : firstInstFrom app.collapsed_groups app.grouped_instances
          ((app.selected_group_index + 1) % app.grouped_instances.length) 0 with
      | none => simp only [hfi]
      | some f => simp only [hfi]
    · simp only [update, App.clear_error, App.first_instance_in_group]
      rw [if_pos hlen]
      cases hfi : firstInstFrom app.collapsed_groups app.grouped_instances
          (if app.selected_group_index = 0 then app.grouped_instances.length - 1
           else app.selected_group_index - 1) 0 with
      | none => simp only [hfi]
      | some f => simp only [hfi]
    · intro g hget hc hne
      have hemp : g.instances.isEmpty = false := List.isEmpty_eq_false.mpr hne
      have hfi : firstInstFrom app.collapsed_groups app.grouped_instances
          ((app.selected_group_index + 1) % app.grouped_instances.length) 0
          = some (0 + visCountFrom app.collapsed_groups
              (app.grouped_instances.take
                ((app.selected_group_index + 1) % app.grouped_instances.length))) := by
        rw [firstInstFrom_eq, hget]
        simp only [Option.some_bind, hc, hemp]
        rfl
      simp only [update, App.clear_error, App.first_instance_in_group]
      rw [if_pos hlen]
      simp only [hfi]
      show 0 + visCountFrom app.collapsed_groups
          (app.grouped_instances.take
            ((app.selected_group_index + 1) % app.grouped_instances.length))
        = visCountFrom app.collapsed_groups
            (app.grouped_instances.take
              ((app.selected_group_index + 1) % app.grouped_instances.length))
      omega
    · intro g hget hcol
      have hcond : (app.collapsed_groups.contains (groupKey g)
          || g.instances.isEmpty) = true := by
        rcases hcol with h1 | h1
        · rw [h1]
          rfl
        · rw [h1]
          simp
      have hfi : firstInstFrom app.collapsed_groups app.grouped_instances
          ((app.selected_group_index + 1) % app.grouped_instances.length) 0 = none := by
        rw [firstInstFrom_eq, hget]
        simp only [Option.some_bind, hcond]
        rfl
      simp only [update, App.clear_error, App.first_instance_in_group]
      rw [if_pos hlen]
      simp only [hfi]
    · intro g hget hc hne
      have hemp : g.instances.isEmpty = false := List.isEmpty_eq_false.mpr hne
      have hfi : firstInstFrom app.collapsed_groups app.grouped_instances
          (if app.selected_group_index = 0 then app.grouped_instances.length - 1
           else app.selected_group_index - 1) 0
          = some (0 + visCountFrom app.collapsed_groups
              (app.grouped_instances.take
                (if app.selected_group_index = 0 then app.grouped_instances.length - 1
                 else app.selected_group_index - 1))) := by
        rw [firstInstFrom_eq, hget]
        simp only [Option.some_bind, hc, hemp]
        rfl
      simp only [update, App.clear_error, App.first_instance_in_group]
      rw [if_pos hlen]
      simp only [hfi]
      show 0 + visCountFrom app.collapsed_groups
          (app.grouped_instances.take
            (if app.selected_group_index = 0 then app.grouped_instances.length - 1
             else app.selected_group_index - 1))
        = visCountFrom app.collapsed_groups
            (app.grouped_instances.take
              (if app.selected_group_index = 0 then app.grouped_instances.length - 1
               else app.selected_group_index - 1))
      omega
    · intro g hget hcol
      have hcond : (app.collapsed_groups.contains (groupKey g)
          || g.instances.isEmpty) = true := by
        rcases hcol with h1 | h1
        · rw [h1]
          rfl
        · rw [h1]
          simp
      have hfi : firstInstFrom app.collapsed_groups app.grouped_instances
          (if app.selected_group_index = 0 then app.grouped_instances.length - 1
           else app.selected_group_index - 1) 0 = none := by
        rw [firstInstFrom_eq, hget]
        simp only [Option.some_bind, hcond]
        rfl
      simp only [update, App.clear_error, App.first_instance_in_group]
      rw [if_pos hlen]
      simp only [hfi]

/-- Witness for C7 (amended): in the two-open-groups state with the second
group selected, NextGroup wraps to group 0 and the selection moves to its
first visible member. -/
theorem c7_witness :
    (update appTwoGroupsOpen Message.NextGroup).selected_instance_index
      = visCountFrom appTwoGroupsOpen.collapsed_groups
          (appTwoGroupsOpen.grouped_instances.take
            ((appTwoGroupsOpen.selected_group_index + 1)
              % appTwoGroupsOpen.grouped_instances.length)) :=
  ((c7_group_navigation_amended appTwoGroupsOpen).2 (by decide)).2.2.1
    { group_name := some "A", instances := [instA1, instA2] } (by decide) (by decide) (by decide)
